import Mathlib

/-!
Verification development for the shell-plus-plus interpreter core: a shallow
embedding of the object model (`src/objects/obj-type.h`,
`src/objects/decl-class-object.cc`), the identifier read semantics
(`src/interpreter/expr-executor.h`), and the job/pipeline executor
(`src/cmd-exec.cc`), together with theorems settling the specified
properties of these components.
-/

set_option maxRecDepth 8192

namespace ShppSpec

/-- Object kind tags, the closed set of §3.1 (`ObjectType` in the source). -/
inductive ObjKind where
  | NULL
  | BOOL
  | INT
  | REAL
  | STRING
  | ARRAY
  | TUPLE
  | MAP
  | FUNC
  | TYPE
  | DECL_TYPE
  | DECL_IFACE
  | DECL_OBJ
  | MODULE
  | CMD
  | ARRAY_ITER
  | CMD_ITER
  | WRAPPER_FUNC
deriving DecidableEq

/-- Runtime error codes (`RunTimeError::ErrorCode`, §4.7). -/
inductive ErrorCode where
  | INCOMPATIBLE_TYPE
  | INVALID_COMMAND
  | FUNC_PARAMS
  | SYMBOL_NOT_FOUND
  | OUT_OF_RANGE
  | KEY_NOT_FOUND
  | INVALID_OPCODE
  | IMPORT_ERROR
  | ASSERT
deriving DecidableEq

/-- Signature of an abstract method (`AbstractMethod` in
decl-class-object.h): number of parameters, number of default
parameters, and whether the method is variadic. -/
structure AbstractMethod where
  num_params : Nat
  num_default_params : Nat
  variadic : Bool
deriving DecidableEq

/-- The signature data of a function object (`FuncObject`) that the
abstract-method compatibility checks consult: `NumParams()`,
`NumDefaultParams()` and `CVariadic()`. -/
structure FuncObject where
  num_params : Nat
  num_default_params : Nat
  variadic : Bool
deriving DecidableEq

/-- AbstractMethod::operator==(const FuncObject&)
(decl-class-object.cc:48-58): when variadic, compare parameter count,
default-parameter count and variadicity; otherwise compare only
parameter count and variadicity. -/
def AbstractMethod.eqFunc (a : AbstractMethod) (f : FuncObject) : Bool :=
  if a.variadic then
    (f.num_params == a.num_params) &&
      (f.num_default_params == a.num_default_params) &&
      (f.variadic == a.variadic)
  else
    (f.num_params == a.num_params) && (f.variadic == a.variadic)

/-- AbstractMethod::operator!=(const FuncObject&)
(decl-class-object.cc:60-62): the negation of operator==. -/
def AbstractMethod.neFunc (a : AbstractMethod) (f : FuncObject) : Bool :=
  !(a.eqFunc f)

/-- AbstractMethod::operator==(const AbstractMethod&)
(decl-class-object.cc:64-74): when the left operand is variadic, compare
parameter count, default-parameter count and variadicity; otherwise
compare only parameter count and variadicity. -/
def AbstractMethod.eqAM (a b : AbstractMethod) : Bool :=
  if a.variadic then
    (b.num_params == a.num_params) &&
      (b.num_default_params == a.num_default_params) &&
      (b.variadic == a.variadic)
  else
    (b.num_params == a.num_params) && (b.variadic == a.variadic)

/-- AbstractMethod::operator!=(const AbstractMethod&)
(decl-class-object.cc:76-78): the negation of operator==. -/
def AbstractMethod.neAM (a b : AbstractMethod) : Bool :=
  !(a.eqAM b)

/-- C4: `AbstractMethod` equality compares the triple
(num_params, num_default_params, variadic) when the left operand is
variadic; otherwise it compares only (num_params, variadic), ignoring
num_default_params entirely; and `!=` is the exact negation of `==`. -/
theorem abstract_method_eq_spec (a b : AbstractMethod) :
    (a.variadic = true →
      (a.eqAM b = true ↔
        (a.num_params = b.num_params ∧
          a.num_default_params = b.num_default_params ∧
          a.variadic = b.variadic))) ∧
    (a.variadic = false →
      (a.eqAM b = true ↔ (a.num_params = b.num_params ∧ a.variadic = b.variadic))) ∧
    (a.variadic = false →
      ∀ d : Nat, a.eqAM { b with num_default_params := d } = a.eqAM b) ∧
    a.neAM b = !(a.eqAM b) := by
  obtain ⟨ap, ad, av⟩ := a
  obtain ⟨bp, bd, bv⟩ := b
  cases av <;> cases bv <;>
    simp [AbstractMethod.eqAM, AbstractMethod.neAM] <;>
    omega

/-- Witness for abstract_method_eq_spec at concrete signatures: a
non-variadic pair differing only in default-parameter counts is equal,
and != is the negation. -/
theorem abstract_method_eq_spec_witness :
    (AbstractMethod.eqAM ⟨2, 0, false⟩ ⟨2, 1, false⟩ = true) ∧
    (AbstractMethod.neAM ⟨2, 0, false⟩ ⟨2, 1, false⟩ = false) := by
  have h := abstract_method_eq_spec ⟨2, 0, false⟩ ⟨2, 1, false⟩
  refine ⟨(h.2.1 rfl).mpr ⟨rfl, rfl⟩, ?_⟩
  rw [h.2.2.2, (h.2.1 rfl).mpr ⟨rfl, rfl⟩]
  rfl

/-- Identity record of a declared instance (`DeclClassObject`): the
allocation id and the weak self back-reference installed by `SetSelf`. -/
structure DeclInstance where
  id : Nat
  selfRef : Option Nat
deriving DecidableEq

/-- Objects of the interpreter as the class-model claims see them: each
constructor corresponds to one object kind, carrying the payload the
checked code inspects (int value, string value, function signature,
declared-instance identity; container and type payloads are reduced to
an id or name because no checked path reads into them). -/
inductive Obj where
  | nullObj
  | boolObj (b : Bool)
  | intObj (n : Int)
  | realObj (bits : Nat)
  | stringObj (s : String)
  | arrayObj (id : Nat)
  | tupleObj (id : Nat)
  | mapObj (id : Nat)
  | funcObj (f : FuncObject)
  | typeObj (name : String)
  | declObj (inst : DeclInstance)
deriving DecidableEq

/-- The kind tag of an object (`Object::type()`). -/
def Obj.kind : Obj → ObjKind
  | .nullObj => .NULL
  | .boolObj _ => .BOOL
  | .intObj _ => .INT
  | .realObj _ => .REAL
  | .stringObj _ => .STRING
  | .arrayObj _ => .ARRAY
  | .tupleObj _ => .TUPLE
  | .mapObj _ => .MAP
  | .funcObj _ => .FUNC
  | .typeObj _ => .TYPE
  | .declObj _ => .DECL_OBJ

/-- A symbol table: an association of names to objects. One such list
stands for one symbol-table stack viewed through lookup. -/
abbrev SymTable := List (String × Obj)

/-- Name lookup in one symbol table, first binding wins. -/
def lookupSym : SymTable → String → Option Obj
  | [], _ => none
  | (k, v) :: rest, n => if k = n then some v else lookupSym rest n

/-- A declared class type (`DeclClassType`): name, `abstract_` flag, the
`abstract_methods_` map (already holding the methods inherited from the
base, which the constructor merges in, decl-class-object.cc:107-119),
its own symbol-table stack, and the tables of its base classes in
method-resolution order. -/
structure DeclClassType where
  name : String
  abstract : Bool
  abstract_methods : List (String × AbstractMethod)
  symtab : SymTable
  base_symtabs : List SymTable

/-- Lookup walking a list of symbol tables in order. -/
def lookupFrames : List SymTable → String → Option Obj
  | [], _ => none
  | t :: ts, n =>
    match lookupSym t n with
    | some o => some o
    | none => lookupFrames ts n

/-- Modelled from the spec: `TypeObject::SearchAttr` is not under src/
(only its callers are); per §4.4 method resolution searches the class
itself, then its base, recursively. -/
def DeclClassType.searchAttr (c : DeclClassType) (n : String) : Option Obj :=
  lookupFrames (c.symtab :: c.base_symtabs) n

/-- One iteration of DeclClassType::CheckAbstractMethodsCompatibility
(decl-class-object.cc:158-174): `SearchAttr` the abstract method's name;
if the attribute is not a function, or its signature differs
(`operator!=`), raise INCOMPATIBLE_TYPE. An unresolved name also fails
with INCOMPATIBLE_TYPE (SearchAttr is spec-modelled). -/
def checkOneMethod (c : DeclClassType) (nm : String)
    (am : AbstractMethod) : Except ErrorCode Unit :=
  match c.searchAttr nm with
  | some (Obj.funcObj f) =>
    if am.neFunc f then .error ErrorCode.INCOMPATIBLE_TYPE
    else .ok ()
  | some _ => .error ErrorCode.INCOMPATIBLE_TYPE
  | none => .error ErrorCode.INCOMPATIBLE_TYPE

/-- The loop of the compatibility check: each abstract method in turn,
a thrown error exiting early. -/
def checkAbstractLoop (c : DeclClassType) :
    List (String × AbstractMethod) → Except ErrorCode Unit
  | [] => .ok ()
  | (nm, am) :: rest =>
    match checkOneMethod c nm am with
    | .ok _ => checkAbstractLoop c rest
    | .error e => .error e

/-- DeclClassType::CheckAbstractMethodsCompatibility
(decl-class-object.cc:150-175): an abstract class passes outright;
otherwise every abstract method must be implemented compatibly. -/
def DeclClassType.checkAbstractMethodsCompatibility
    (c : DeclClassType) : Except ErrorCode Unit :=
  if c.abstract then .ok ()
  else checkAbstractLoop c c.abstract_methods

/-- Modelled from the spec: `ObjectFactory::NewDeclObject` is not under
src/; it allocates a `DeclClassObject` and installs the weak self
back-reference (§3.4, §4.4: "allocates a `DeclClassObject`, sets
`self_`"). -/
def newDeclObject (fresh : Nat) : DeclInstance :=
  ⟨fresh, some fresh⟩

/-- The call to `__init__` that the constructor would perform: the
function object found in the class symbol table, the positional
arguments with the new instance prepended, and the keyword arguments. -/
structure InitCall where
  func : FuncObject
  args : List Obj
  kwargs : List (String × Obj)
deriving DecidableEq

/-- Result of a successful construction: the new instance and the
`__init__` invocation performed, if any. -/
structure ConstructedObject where
  inst : DeclInstance
  init_call : Option InitCall
deriving DecidableEq

/-- DeclClassType::Constructor (decl-class-object.cc:218-241): an
abstract class throws INCOMPATIBLE_TYPE; otherwise a fresh
`DeclClassObject` is allocated, and when the symbol `__init__` exists in
the class symbol-table stack and is of function kind it is called with
the new instance prepended to the arguments; the instance is returned. -/
def DeclClassType.Constructor (c : DeclClassType) (fresh : Nat)
    (args : List Obj) (kwargs : List (String × Obj)) :
    Except ErrorCode ConstructedObject :=
  if c.abstract then .error ErrorCode.INCOMPATIBLE_TYPE
  else
    let obj_self := newDeclObject fresh
    match lookupSym c.symtab "__init__" with
    | some (Obj.funcObj f) =>
      .ok ⟨obj_self, some ⟨f, Obj.declObj obj_self :: args, kwargs⟩⟩
    | some _ => .ok ⟨obj_self, none⟩
    | none => .ok ⟨obj_self, none⟩

/-- C3: constructing any declared class whose abstract flag is set
raises INCOMPATIBLE_TYPE, for every argument list, and never produces an
instance. -/
theorem abstract_class_constructor_rejects (c : DeclClassType)
    (fresh : Nat) (args : List Obj) (kwargs : List (String × Obj))
    (h : c.abstract = true) :
    c.Constructor fresh args kwargs = .error ErrorCode.INCOMPATIBLE_TYPE ∧
    ∀ r : ConstructedObject, c.Constructor fresh args kwargs ≠ .ok r := by
  refine ⟨by simp [DeclClassType.Constructor, h], ?_⟩
  intro r hr
  rw [show c.Constructor fresh args kwargs = .error ErrorCode.INCOMPATIBLE_TYPE
    from by simp [DeclClassType.Constructor, h]] at hr
  cases hr

/-- Witness for abstract_class_constructor_rejects: a concrete abstract
class refuses construction. -/
theorem abstract_class_constructor_rejects_witness :
    DeclClassType.Constructor ⟨"A", true, [], [], []⟩ 0 [] [] =
      .error ErrorCode.INCOMPATIBLE_TYPE :=
  (abstract_class_constructor_rejects ⟨"A", true, [], [], []⟩ 0 [] [] rfl).1

/-- C6: for a non-abstract class, the constructor succeeds, allocates a
fresh instance carrying its own id as self back-reference, and performs
the `__init__` call, with the instance prepended to the arguments,
exactly when `__init__` is bound to a function in the class symbol
table. -/
theorem constructor_allocates_and_calls_init (c : DeclClassType)
    (fresh : Nat) (args : List Obj) (kwargs : List (String × Obj))
    (h : c.abstract = false) :
    ∃ r : ConstructedObject,
      c.Constructor fresh args kwargs = .ok r ∧
      r.inst.id = fresh ∧
      r.inst.selfRef = some r.inst.id ∧
      (∀ f : FuncObject,
        lookupSym c.symtab "__init__" = some (Obj.funcObj f) →
        r.init_call = some ⟨f, Obj.declObj r.inst :: args, kwargs⟩) ∧
      ((¬ ∃ f : FuncObject,
          lookupSym c.symtab "__init__" = some (Obj.funcObj f)) →
        r.init_call = none) := by
  cases hl : lookupSym c.symtab "__init__" with
  | none =>
    refine ⟨⟨newDeclObject fresh, none⟩, ?_, rfl, rfl, ?_, fun _ => rfl⟩
    · simp [DeclClassType.Constructor, h, hl]
    · intro f hf
      cases hf
  | some o =>
    cases o
    case funcObj f =>
      refine ⟨⟨newDeclObject fresh,
        some ⟨f, Obj.declObj (newDeclObject fresh) :: args, kwargs⟩⟩,
        ?_, rfl, rfl, ?_, ?_⟩
      · simp [DeclClassType.Constructor, h, hl]
      · intro f' hf'
        cases hf'
        rfl
      · intro hne
        exact absurd ⟨f, rfl⟩ hne
    all_goals
      refine ⟨⟨newDeclObject fresh, none⟩, ?_, rfl, rfl, ?_, fun _ => rfl⟩
      · simp [DeclClassType.Constructor, h, hl]
      · intro f hf
        simp at hf

/-- Witness for constructor_allocates_and_calls_init: a concrete
non-abstract class with an `__init__` function constructs successfully. -/
theorem constructor_allocates_and_calls_init_witness :
    ∃ r : ConstructedObject,
      DeclClassType.Constructor
        ⟨"B", false, [], [("__init__", Obj.funcObj ⟨1, 0, false⟩)], []⟩
        7 [Obj.intObj 3] [] = .ok r ∧
      r.inst.id = 7 ∧
      r.inst.selfRef = some r.inst.id ∧
      (∀ f : FuncObject,
        lookupSym [("__init__", Obj.funcObj ⟨1, 0, false⟩)] "__init__" =
          some (Obj.funcObj f) →
        r.init_call = some ⟨f, Obj.declObj r.inst :: [Obj.intObj 3], []⟩) ∧
      ((¬ ∃ f : FuncObject,
          lookupSym [("__init__", Obj.funcObj ⟨1, 0, false⟩)] "__init__" =
            some (Obj.funcObj f)) →
        r.init_call = none) :=
  constructor_allocates_and_calls_init
    ⟨"B", false, [], [("__init__", Obj.funcObj ⟨1, 0, false⟩)], []⟩
    7 [Obj.intObj 3] [] rfl

/-- One check step succeeds exactly when the name resolves to a function
of matching signature. -/
theorem checkOneMethod_ok_iff (c : DeclClassType) (nm : String)
    (am : AbstractMethod) :
    checkOneMethod c nm am = .ok () ↔
      ∃ f : FuncObject,
        c.searchAttr nm = some (Obj.funcObj f) ∧ am.eqFunc f = true := by
  cases hs : c.searchAttr nm with
  | none => simp [checkOneMethod, hs]
  | some o =>
    cases o <;> simp [checkOneMethod, hs, AbstractMethod.neFunc]

/-- One check step either succeeds or fails with INCOMPATIBLE_TYPE. -/
theorem checkOneMethod_err (c : DeclClassType) (nm : String)
    (am : AbstractMethod) :
    checkOneMethod c nm am = .ok () ∨
      checkOneMethod c nm am = .error ErrorCode.INCOMPATIBLE_TYPE := by
  cases hs : c.searchAttr nm with
  | none => simp [checkOneMethod, hs]
  | some o =>
    cases o <;> simp [checkOneMethod, hs]

/-- The loop succeeds exactly when every listed abstract method resolves
to a function of matching signature. -/
theorem checkAbstractLoop_ok_iff (c : DeclClassType)
    (l : List (String × AbstractMethod)) :
    checkAbstractLoop c l = .ok () ↔
      ∀ p ∈ l, ∃ f : FuncObject,
        c.searchAttr p.1 = some (Obj.funcObj f) ∧ p.2.eqFunc f = true := by
  induction l with
  | nil => simp [checkAbstractLoop]
  | cons hd tl ih =>
    obtain ⟨nm, am⟩ := hd
    cases hc : checkOneMethod c nm am with
    | ok u =>
      cases u
      simp only [checkAbstractLoop, hc]
      rw [ih]
      constructor
      · intro hall p hp
        rcases List.mem_cons.mp hp with hph | hph
        · subst hph
          exact (checkOneMethod_ok_iff c nm am).mp hc
        · exact hall p hph
      · intro hall p hp
        exact hall p (List.mem_cons_of_mem _ hp)
    | error e =>
      simp only [checkAbstractLoop, hc]
      constructor
      · intro hok
        cases hok
      · intro hall
        have h1 := hall (nm, am) (List.mem_cons_self _ _)
        have h2 := (checkOneMethod_ok_iff c nm am).mpr h1
        rw [hc] at h2
        cases h2

/-- The loop either succeeds or fails with INCOMPATIBLE_TYPE. -/
theorem checkAbstractLoop_err (c : DeclClassType)
    (l : List (String × AbstractMethod)) :
    checkAbstractLoop c l = .ok () ∨
      checkAbstractLoop c l = .error ErrorCode.INCOMPATIBLE_TYPE := by
  induction l with
  | nil => exact Or.inl rfl
  | cons hd tl ih =>
    obtain ⟨nm, am⟩ := hd
    cases hc : checkOneMethod c nm am with
    | ok u =>
      cases u
      simpa only [checkAbstractLoop, hc] using ih
    | error e =>
      rcases checkOneMethod_err c nm am with h1 | h1 <;> rw [hc] at h1
      · cases h1
      · cases h1
        simp [checkAbstractLoop, hc]

/-- C2: the abstract-method compatibility check succeeds iff the class
is abstract or every abstract method (the map already includes the
methods inherited from the base) resolves through the class and its
bases to a function attribute with matching signature; any failure is a
RuntimeError with code INCOMPATIBLE_TYPE. -/
theorem check_abstract_methods_spec (c : DeclClassType) :
    (c.checkAbstractMethodsCompatibility = .ok () ↔
      (c.abstract = true ∨
        ∀ p ∈ c.abstract_methods, ∃ f : FuncObject,
          c.searchAttr p.1 = some (Obj.funcObj f) ∧ p.2.eqFunc f = true)) ∧
    (c.checkAbstractMethodsCompatibility ≠ .ok () →
      c.checkAbstractMethodsCompatibility =
        .error ErrorCode.INCOMPATIBLE_TYPE) := by
  cases hab : c.abstract with
  | true =>
    have hok : c.checkAbstractMethodsCompatibility = .ok () := by
      simp [DeclClassType.checkAbstractMethodsCompatibility, hab]
    refine ⟨?_, fun hne => absurd hok hne⟩
    rw [hok]
    simp
  | false =>
    have hdef : c.checkAbstractMethodsCompatibility =
        checkAbstractLoop c c.abstract_methods := by
      simp [DeclClassType.checkAbstractMethodsCompatibility, hab]
    rw [hdef]
    constructor
    · rw [checkAbstractLoop_ok_iff]
      constructor
      · exact fun h2 => Or.inr h2
      · intro h2
        rcases h2 with h2 | h2
        · cases h2
        · exact h2
    · intro hne
      rcases checkAbstractLoop_err c c.abstract_methods with h2 | h2
      · exact absurd h2 hne
      · exact h2

/-- Witness for check_abstract_methods_spec: a concrete non-abstract
class implementing its one abstract method passes the check, and the
implication on failure is instantiated vacuously. -/
theorem check_abstract_methods_spec_witness :
    DeclClassType.checkAbstractMethodsCompatibility
      ⟨"B", false, [("f", ⟨2, 0, false⟩)],
        [("f", Obj.funcObj ⟨2, 1, false⟩)], []⟩ = .ok () := by
  have h := (check_abstract_methods_spec
    ⟨"B", false, [("f", ⟨2, 0, false⟩)],
      [("f", Obj.funcObj ⟨2, 1, false⟩)], []⟩).1
  refine h.mpr (Or.inr ?_)
  intro p hp
  have hp2 : p = ("f", (⟨2, 0, false⟩ : AbstractMethod)) := by
    simpa using hp
  subst hp2
  exact ⟨⟨2, 1, false⟩, rfl, rfl⟩

/-- DeclClassObject::Caller (decl-class-object.cc:489-504): look the
dunder name up in the type's symbol-table stack (`SharedAccess` hands a
function object through unchanged); a non-function binding raises
INCOMPATIBLE_TYPE; otherwise the function is called with the instance
prepended to the parameters. The body of the user function is abstracted
by the oracle `call`, which maps the resolved function object to its
returned value; an unresolved name is modelled as SYMBOL_NOT_FOUND
(`SymbolTableStack::Lookup` with create=false is not under src/; per
§3.3 it fails when unresolved). -/
def caller (typeSymtab : SymTable) (fname : String)
    (call : FuncObject → Obj) : Except ErrorCode Obj :=
  match lookupSym typeSymtab fname with
  | some (Obj.funcObj f) => .ok (call f)
  | some _ => .error ErrorCode.INCOMPATIBLE_TYPE
  | none => .error ErrorCode.SYMBOL_NOT_FOUND

/-- DeclClassObject::Print (decl-class-object.cc:444-453): call
`__print__`; a non-STRING result raises INCOMPATIBLE_TYPE, otherwise the
string value is returned. -/
def declClassPrint (ts : SymTable) (call : FuncObject → Obj) :
    Except ErrorCode String :=
  match caller ts "__print__" call with
  | .ok (Obj.stringObj s) => .ok s
  | .ok _ => .error ErrorCode.INCOMPATIBLE_TYPE
  | .error e => .error e

/-- DeclClassObject::Len (decl-class-object.cc:455-464): call `__len__`;
a non-INT result raises INCOMPATIBLE_TYPE, otherwise the integer value
is returned. -/
def declClassLen (ts : SymTable) (call : FuncObject → Obj) :
    Except ErrorCode Int :=
  match caller ts "__len__" call with
  | .ok (Obj.intObj n) => .ok n
  | .ok _ => .error ErrorCode.INCOMPATIBLE_TYPE
  | .error e => .error e

/-- DeclClassObject::Hash (decl-class-object.cc:466-475): call
`__hash__`; a non-INT result raises INCOMPATIBLE_TYPE, otherwise the
value cast to size_t is returned. -/
def declClassHash (ts : SymTable) (call : FuncObject → Obj) :
    Except ErrorCode Nat :=
  match caller ts "__hash__" call with
  | .ok (Obj.intObj n) => .ok (n % (2 : Int) ^ 64).toNat
  | .ok _ => .error ErrorCode.INCOMPATIBLE_TYPE
  | .error e => .error e

/-- DeclClassObject::ObjString (decl-class-object.cc:485-487): call
`__str__` and return its result directly; no result-kind check is
performed. -/
def declClassObjString (ts : SymTable) (call : FuncObject → Obj) :
    Except ErrorCode Obj :=
  caller ts "__str__" call

/-- C5 counterexample: with `__str__` bound to a function whose body
returns the INT object 3, `ObjString` returns that object successfully
instead of raising INCOMPATIBLE_TYPE, so the claimed STRING coercion for
`__str__` does not hold. -/
theorem obj_string_unchecked_counterexample :
    declClassObjString [("__str__", Obj.funcObj ⟨1, 0, false⟩)]
        (fun _ => Obj.intObj 3) = .ok (Obj.intObj 3) ∧
      declClassObjString [("__str__", Obj.funcObj ⟨1, 0, false⟩)]
        (fun _ => Obj.intObj 3) ≠
        .error ErrorCode.INCOMPATIBLE_TYPE := by
  constructor
  · rfl
  · intro h
    cases h

/-- C5 (amended): `__print__` must return STRING and `__len__` /
`__hash__` must return INT, any other result kind raising
INCOMPATIBLE_TYPE; the result of `__str__` is passed through entirely
unchecked. -/
theorem dunder_return_coercion (ts : SymTable) (call : FuncObject → Obj) :
    (∀ s : String, caller ts "__print__" call = .ok (Obj.stringObj s) →
      declClassPrint ts call = .ok s) ∧
    (∀ o : Obj, caller ts "__print__" call = .ok o →
      o.kind ≠ ObjKind.STRING →
      declClassPrint ts call = .error ErrorCode.INCOMPATIBLE_TYPE) ∧
    (∀ n : Int, caller ts "__len__" call = .ok (Obj.intObj n) →
      declClassLen ts call = .ok n) ∧
    (∀ o : Obj, caller ts "__len__" call = .ok o →
      o.kind ≠ ObjKind.INT →
      declClassLen ts call = .error ErrorCode.INCOMPATIBLE_TYPE) ∧
    (∀ n : Int, caller ts "__hash__" call = .ok (Obj.intObj n) →
      declClassHash ts call = .ok (n % (2 : Int) ^ 64).toNat) ∧
    (∀ o : Obj, caller ts "__hash__" call = .ok o →
      o.kind ≠ ObjKind.INT →
      declClassHash ts call = .error ErrorCode.INCOMPATIBLE_TYPE) ∧
    declClassObjString ts call = caller ts "__str__" call := by
  refine ⟨?_, ?_, ?_, ?_, ?_, ?_, rfl⟩
  · intro s hc
    simp [declClassPrint, hc]
  · intro o hc hk
    cases o <;> simp [declClassPrint, hc]
    exact absurd rfl hk
  · intro n hc
    simp [declClassLen, hc]
  · intro o hc hk
    cases o <;> simp [declClassLen, hc]
    exact absurd rfl hk
  · intro n hc
    simp [declClassHash, hc]
  · intro o hc hk
    cases o <;> simp [declClassHash, hc]
    exact absurd rfl hk

/-- Witness for dunder_return_coercion at a concrete class whose dunder
bodies all return the string "x": `__print__` succeeds and `__len__`
raises INCOMPATIBLE_TYPE. -/
theorem dunder_return_coercion_witness :
    declClassPrint
        [("__print__", Obj.funcObj ⟨1, 0, false⟩),
          ("__len__", Obj.funcObj ⟨1, 0, false⟩)]
        (fun _ => Obj.stringObj "x") = .ok "x" ∧
      declClassLen
        [("__print__", Obj.funcObj ⟨1, 0, false⟩),
          ("__len__", Obj.funcObj ⟨1, 0, false⟩)]
        (fun _ => Obj.stringObj "x") =
        .error ErrorCode.INCOMPATIBLE_TYPE := by
  have h := dunder_return_coercion
    [("__print__", Obj.funcObj ⟨1, 0, false⟩),
      ("__len__", Obj.funcObj ⟨1, 0, false⟩)]
    (fun _ => Obj.stringObj "x")
  exact ⟨h.1 "x" rfl, h.2.2.2.1 (Obj.stringObj "x") rfl (by simp [Obj.kind])⟩

/-- An object as TypeObject::operator== inspects it: its kind tag and,
when it is a type object, the canonical type name `name_`. -/
structure ObjectRepr where
  kind : ObjKind
  name : String
deriving DecidableEq

/-- TypeObject::operator== (obj-type.h:142-154): an operand whose kind
is not TYPE compares unequal; otherwise the canonical names decide. -/
def typeObjectEq (self obj : ObjectRepr) : Bool :=
  if obj.kind ≠ ObjKind.TYPE then false
  else if self.name == obj.name then true
  else false

/-- TypeObject's constructor tags the object ObjectType::TYPE
(obj-type.h:126-133). -/
def mkTypeObject (name : String) : ObjectRepr :=
  ⟨ObjKind.TYPE, name⟩

/-- DeclClassType is constructed through TypeObject's constructor and so
also carries kind TYPE (obj-type.h:193-197). -/
def mkDeclClassTypeObject (name : String) : ObjectRepr :=
  mkTypeObject name

/-- C8: equality on type objects is decided by canonical name — for any
operand of kind TYPE, which in this code includes every declared class
type, operator== holds iff the names agree; an operand of any other kind
compares false. -/
theorem type_object_eq_by_name :
    (∀ a b : ObjectRepr, b.kind = ObjKind.TYPE →
      (typeObjectEq a b = true ↔ a.name = b.name)) ∧
    (∀ a b : ObjectRepr, b.kind ≠ ObjKind.TYPE →
      typeObjectEq a b = false) ∧
    (∀ n₁ n₂ : String,
      typeObjectEq (mkDeclClassTypeObject n₁) (mkDeclClassTypeObject n₂) =
        (n₁ == n₂)) := by
  refine ⟨?_, ?_, ?_⟩
  · intro a b hb
    simp [typeObjectEq, hb]
  · intro a b hb
    simp [typeObjectEq, hb]
  · intro n₁ n₂
    cases h : n₁ == n₂ <;>
      simp_all [typeObjectEq, mkDeclClassTypeObject, mkTypeObject]

/-- Witness for type_object_eq_by_name: two declared class types named
"A" compare equal; a type object compared with an INT object compares
false. -/
theorem type_object_eq_by_name_witness :
    typeObjectEq (mkDeclClassTypeObject "A") (mkDeclClassTypeObject "A") =
        true ∧
      typeObjectEq (mkTypeObject "int") ⟨ObjKind.INT, "int"⟩ = false := by
  have h := type_object_eq_by_name
  exact ⟨(h.1 (mkDeclClassTypeObject "A") (mkDeclClassTypeObject "A")
      rfl).mpr rfl,
    h.2.1 (mkTypeObject "int") ⟨ObjKind.INT, "int"⟩ (by simp)⟩

/-- A pipeline process as the job executor tracks it (`Process` in
cmd-exec.h): the pid recorded at fork, the `completed_` and `stopped_`
flags, and the last wait status. -/
structure Process where
  pid : Nat
  completed : Bool
  stopped : Bool
  status : Nat
deriving DecidableEq

/-- WIFSTOPPED on a waitpid status word: the low byte is 0x7f. -/
def wifstopped (st : Nat) : Bool :=
  st % 256 == 127

/-- The search-and-update loop of Job::MarkProcessStatus
(cmd-exec.cc:125-135): find the process with the given pid, record the
status, and set `stopped_` when WIFSTOPPED(status) holds, `completed_`
otherwise; `none` when no process matches. -/
def markOne : List Process → Nat → Nat → Option (List Process)
  | [], _, _ => none
  | p :: ps, pid, st =>
    if p.pid == pid then
      some ({ p with
        status := st,
        stopped := if wifstopped st then true else p.stopped,
        completed := if wifstopped st then p.completed else true } :: ps)
    else
      (markOne ps pid st).map (p :: ·)

/-- Job::MarkProcessStatus (cmd-exec.cc:123-142): returns 0 with the
updated process list when a process with this pid was found; -1 (pid 0,
ECHILD, or a pid not in the job) leaves the list unchanged. -/
def markProcessStatus (ps : List Process) (pid : Nat) (st : Nat) :
    List Process × Int :=
  if 0 < pid then
    match markOne ps pid st with
    | some qs => (qs, 0)
    | none => (ps, -1)
  else (ps, -1)

/-- Job::JobIsStopped (cmd-exec.cc:144-151): 0 as soon as some process
is neither completed nor stopped, else 1. -/
def jobIsStopped : List Process → Nat
  | [] => 1
  | p :: ps => if !p.completed && !p.stopped then 0 else jobIsStopped ps

/-- Job::JobIsCompleted (cmd-exec.cc:153-160): 0 as soon as some process
is not completed, else 1. -/
def jobIsCompleted : List Process → Nat
  | [] => 1
  | p :: ps => if !p.completed then 0 else jobIsCompleted ps

/-- Job::WaitForJob (cmd-exec.cc:162-171), driven by a trace of results
of waitpid(WAIT_ANY, &status, WUNTRACED): each event is one (pid,
status) pair delivered by the OS; an exhausted trace stands for waitpid
failing with ECHILD (or returning 0), on which MarkProcessStatus returns
-1 and the do-while loop exits. The loop continues only while the mark
succeeded and the job is neither stopped nor completed. -/
def waitForJob : List Process → List (Nat × Nat) → List Process
  | ps, [] => ps
  | ps, (pid, st) :: rest =>
    let r := markProcessStatus ps pid st
    if r.2 = 0 ∧ jobIsStopped r.1 = 0 ∧ jobIsCompleted r.1 = 0 then
      waitForJob r.1 rest
    else r.1

/-- Marking preserves the pid sequence of the job. -/
theorem markOne_pids (pid st : Nat) :
    ∀ ps qs : List Process, markOne ps pid st = some qs →
      qs.map (·.pid) = ps.map (·.pid) := by
  intro ps
  induction ps with
  | nil => intro qs h; cases h
  | cons p tl ih =>
    intro qs h
    unfold markOne at h
    by_cases hp : p.pid == pid
    · rw [if_pos hp] at h
      cases h
      rfl
    · rw [if_neg hp] at h
      cases hm : markOne tl pid st with
      | none => rw [hm] at h; cases h
      | some qs' =>
        rw [hm] at h
        cases h
        simp [ih qs' hm]

/-- Every process after a successful mark is either the updated one
(matching the pid, now completed or stopped) or is untouched. -/
theorem markOne_mem (pid st : Nat) :
    ∀ ps qs : List Process, markOne ps pid st = some qs →
      ∀ q ∈ qs, (q.pid = pid ∧ (q.completed || q.stopped) = true) ∨ q ∈ ps := by
  intro ps
  induction ps with
  | nil => intro qs h; cases h
  | cons p tl ih =>
    intro qs h q hq
    unfold markOne at h
    by_cases hp : p.pid == pid
    · rw [if_pos hp] at h
      cases h
      rcases List.mem_cons.mp hq with hq | hq
      · subst hq
        refine Or.inl ⟨by simpa using hp, ?_⟩
        cases hw : wifstopped st <;> simp [hw]
      · exact Or.inr (List.mem_cons_of_mem _ hq)
    · rw [if_neg hp] at h
      cases hm : markOne tl pid st with
      | none => rw [hm] at h; cases h
      | some qs' =>
        rw [hm] at h
        cases h
        rcases List.mem_cons.mp hq with hq | hq
        · exact Or.inr (hq ▸ List.mem_cons_self _ _)
        · rcases ih qs' hm q hq with h2 | h2
          · exact Or.inl h2
          · exact Or.inr (List.mem_cons_of_mem _ h2)

/-- A successful mark leaves some process with the marked pid completed
or stopped. -/
theorem markOne_hits (pid st : Nat) :
    ∀ ps qs : List Process, markOne ps pid st = some qs →
      ∃ q ∈ qs, q.pid = pid ∧ (q.completed || q.stopped) = true := by
  intro ps
  induction ps with
  | nil => intro qs h; cases h
  | cons p tl ih =>
    intro qs h
    unfold markOne at h
    by_cases hp : p.pid == pid
    · rw [if_pos hp] at h
      cases h
      refine ⟨_, List.mem_cons_self _ _, by simpa using hp, ?_⟩
      cases hw : wifstopped st <;> simp [hw]
    · rw [if_neg hp] at h
      cases hm : markOne tl pid st with
      | none => rw [hm] at h; cases h
      | some qs' =>
        rw [hm] at h
        cases h
        obtain ⟨q, hq, h1, h2⟩ := ih qs' hm
        exact ⟨q, List.mem_cons_of_mem _ hq, h1, h2⟩

/-- The mark succeeds whenever some process carries the pid. -/
theorem markOne_some_of_mem (pid st : Nat) :
    ∀ ps : List Process, (∃ p ∈ ps, p.pid = pid) →
      ∃ qs, markOne ps pid st = some qs := by
  intro ps
  induction ps with
  | nil =>
    rintro ⟨p, hp, _⟩
    cases hp
  | cons p tl ih =>
    rintro ⟨p', hp', hpid⟩
    by_cases hp : p.pid == pid
    · exact ⟨_, by unfold markOne; rw [if_pos hp]⟩
    · rcases List.mem_cons.mp hp' with h2 | h2
      · subst h2
        exact absurd (by simp [hpid]) hp
      · obtain ⟨qs', hqs'⟩ := ih ⟨p', h2, hpid⟩
        refine ⟨p :: qs', ?_⟩
        unfold markOne
        rw [if_neg hp, hqs']
        rfl

/-- JobIsStopped returns 0 or 1. -/
theorem jobIsStopped_zero_or_one (ps : List Process) :
    jobIsStopped ps = 0 ∨ jobIsStopped ps = 1 := by
  induction ps with
  | nil => exact Or.inr rfl
  | cons p tl ih =>
    unfold jobIsStopped
    by_cases h : (!p.completed && !p.stopped) = true
    · rw [if_pos h]; exact Or.inl rfl
    · rw [if_neg h]; exact ih

/-- JobIsStopped returns 1 exactly when every process is completed or
stopped. -/
theorem jobIsStopped_eq_one_iff (ps : List Process) :
    jobIsStopped ps = 1 ↔ ∀ p ∈ ps, (p.completed || p.stopped) = true := by
  induction ps with
  | nil => simp [jobIsStopped]
  | cons p tl ih =>
    unfold jobIsStopped
    by_cases h : (!p.completed && !p.stopped) = true
    · rw [if_pos h]
      simp only [Bool.and_eq_true, Bool.not_eq_true'] at h
      constructor
      · intro h0; cases h0
      · intro hall
        have := hall p (List.mem_cons_self _ _)
        rw [h.1, h.2] at this
        cases this
    · rw [if_neg h]
      rw [ih]
      have hm : (p.completed || p.stopped) = true := by
        revert h
        cases p.completed <;> cases p.stopped <;> simp
      constructor
      · intro hall q hq
        rcases List.mem_cons.mp hq with hq | hq
        · exact hq ▸ hm
        · exact hall q hq
      · intro hall q hq
        exact hall q (List.mem_cons_of_mem _ hq)

/-- JobIsCompleted returns 1 exactly when every process is completed. -/
theorem jobIsCompleted_eq_one_iff (ps : List Process) :
    jobIsCompleted ps = 1 ↔ ∀ p ∈ ps, p.completed = true := by
  induction ps with
  | nil => simp [jobIsCompleted]
  | cons p tl ih =>
    unfold jobIsCompleted
    by_cases h : (!p.completed) = true
    · rw [if_pos h]
      simp only [Bool.not_eq_true'] at h
      constructor
      · intro h0; cases h0
      · intro hall
        have := hall p (List.mem_cons_self _ _)
        rw [h] at this
        cases this
    · rw [if_neg h]
      simp only [Bool.not_eq_true', Bool.not_eq_false] at h
      rw [ih]
      constructor
      · intro hall q hq
        rcases List.mem_cons.mp hq with hq | hq
        · exact hq ▸ h
        · exact hall q hq
      · intro hall q hq
        exact hall q (List.mem_cons_of_mem _ hq)

/-- JobIsCompleted returns 0 or 1. -/
theorem jobIsCompleted_zero_or_one (ps : List Process) :
    jobIsCompleted ps = 0 ∨ jobIsCompleted ps = 1 := by
  induction ps with
  | nil => exact Or.inr rfl
  | cons p tl ih =>
    unfold jobIsCompleted
    by_cases h : (!p.completed) = true
    · rw [if_pos h]; exact Or.inl rfl
    · rw [if_neg h]; exact ih

/-- The invariant of the wait loop: if every delivered pid belongs to
the job, the job's pids are distinct and positive, and every not yet
marked process is covered by a later event, then every process ends
completed or stopped. -/
theorem waitForJob_marks (events : List (Nat × Nat)) :
    ∀ ps : List Process,
      (∀ p ∈ ps, 0 < p.pid) →
      (ps.map (·.pid)).Nodup →
      (∀ e ∈ events, ∃ p ∈ ps, p.pid = e.1) →
      (∀ p ∈ ps, (p.completed || p.stopped) = true ∨
        ∃ e ∈ events, e.1 = p.pid) →
      ∀ q ∈ waitForJob ps events, (q.completed || q.stopped) = true := by
  induction events with
  | nil =>
    intro ps _ _ _ hcover q hq
    simp only [waitForJob] at hq
    rcases hcover q hq with h | ⟨e, he, _⟩
    · exact h
    · cases he
  | cons e rest ih =>
    obtain ⟨pid, st⟩ := e
    intro ps hpos hnodup hev hcover q hq
    obtain ⟨p0, hp0, hpid0⟩ := hev (pid, st) (List.mem_cons_self _ _)
    have hpid1 : p0.pid = pid := hpid0
    have hpidpos : 0 < pid := hpid1 ▸ hpos p0 hp0
    obtain ⟨qs, hqs⟩ := markOne_some_of_mem pid st ps ⟨p0, hp0, hpid1⟩
    have hmark : markProcessStatus ps pid st = (qs, 0) := by
      simp [markProcessStatus, hpidpos, hqs]
    have hpids : qs.map (·.pid) = ps.map (·.pid) := markOne_pids pid st ps qs hqs
    have hpos2 : ∀ q' ∈ qs, 0 < q'.pid := by
      intro q' hq'
      have hmm : q'.pid ∈ qs.map (·.pid) := List.mem_map_of_mem _ hq'
      rw [hpids] at hmm
      obtain ⟨p', hp', hpe⟩ := List.mem_map.mp hmm
      rw [← hpe]
      exact hpos p' hp'
    have hnodup2 : (qs.map (·.pid)).Nodup := by
      rw [hpids]
      exact hnodup
    have hmarked_of_pid : ∀ q' ∈ qs, q'.pid = pid →
        (q'.completed || q'.stopped) = true := by
      intro q' hq' hqp
      obtain ⟨q2, hq2, hq2pid, hq2m⟩ := markOne_hits pid st ps qs hqs
      have heq : q' = q2 :=
        List.inj_on_of_nodup_map hnodup2 hq' hq2 (by rw [hqp, hq2pid])
      rw [heq]
      exact hq2m
    have hcover2 : ∀ q' ∈ qs, (q'.completed || q'.stopped) = true ∨
        ∃ e2 ∈ rest, e2.1 = q'.pid := by
      intro q' hq'
      rcases markOne_mem pid st ps qs hqs q' hq' with ⟨hqp, hqm⟩ | hmem
      · exact Or.inl hqm
      · rcases hcover q' hmem with h | ⟨e2, he2, hpe2⟩
        · exact Or.inl h
        · rcases List.mem_cons.mp he2 with he3 | he3
          · subst he3
            exact Or.inl (hmarked_of_pid q' hq' hpe2.symm)
          · exact Or.inr ⟨e2, he3, hpe2⟩
    have hev2 : ∀ e2 ∈ rest, ∃ p' ∈ qs, p'.pid = e2.1 := by
      intro e2 he2
      obtain ⟨p', hp', hpe'⟩ := hev e2 (List.mem_cons_of_mem _ he2)
      have hmm : p'.pid ∈ ps.map (·.pid) := List.mem_map_of_mem _ hp'
      rw [← hpids] at hmm
      obtain ⟨q2, hq2, hqe2⟩ := List.mem_map.mp hmm
      exact ⟨q2, hq2, by rw [hqe2, hpe']⟩
    simp only [waitForJob, hmark] at hq
    by_cases hcond : jobIsStopped qs = 0 ∧ jobIsCompleted qs = 0
    · rw [if_pos (by simpa using hcond)] at hq
      exact ih qs hpos2 hnodup2 hev2 hcover2 q hq
    · rw [if_neg (by simpa using hcond)] at hq
      rcases jobIsStopped_zero_or_one qs with hs | hs
      · have hc : jobIsCompleted qs = 1 := by
          rcases jobIsCompleted_zero_or_one qs with hc | hc
          · exact absurd ⟨hs, hc⟩ hcond
          · exact hc
        have hcq := (jobIsCompleted_eq_one_iff qs).mp hc q hq
        rw [hcq]
        simp
      · exact (jobIsStopped_eq_one_iff qs).mp hs q hq

/-- C7: over any waitpid trace whose delivered pids all belong to the
job (the job's pids being positive and distinct) and which reports every
not-yet-marked process at least once, WaitForJob returns with every
process of the job marked completed or stopped (an exhausted trace,
i.e. ECHILD or pid 0, exits the loop); and MarkProcessStatus marks the
matching process stopped exactly when WIFSTOPPED(status) holds,
completed otherwise, recording the status word. -/
theorem wait_for_job_marks_all (events : List (Nat × Nat))
    (ps : List Process)
    (hpos : ∀ p ∈ ps, 0 < p.pid)
    (hnodup : (ps.map (·.pid)).Nodup)
    (hev : ∀ e ∈ events, ∃ p ∈ ps, p.pid = e.1)
    (hcover : ∀ p ∈ ps, (p.completed || p.stopped) = true ∨
      ∃ e ∈ events, e.1 = p.pid) :
    (∀ q ∈ waitForJob ps events, (q.completed || q.stopped) = true) ∧
    (∀ (p : Process) (st : Nat), 0 < p.pid →
      markProcessStatus [p] p.pid st =
        ([{ p with
            status := st,
            stopped := if wifstopped st then true else p.stopped,
            completed := if wifstopped st then p.completed else true }], 0)) := by
  refine ⟨waitForJob_marks events ps hpos hnodup hev hcover, ?_⟩
  intro p st hp
  simp [markProcessStatus, markOne, hp]

/-- Witness for wait_for_job_marks_all: a one-process job whose single
event reports a normal exit ends fully marked — the resulting process
record is completed. -/
theorem wait_for_job_marks_all_witness :
    waitForJob [⟨1, false, false, 0⟩] [(1, 0)] = [⟨1, true, false, 0⟩] ∧
      ((⟨1, true, false, 0⟩ : Process).completed ||
        (⟨1, true, false, 0⟩ : Process).stopped) = true :=
  ⟨by decide,
    (wait_for_job_marks_all [(1, 0)] [⟨1, false, false, 0⟩]
      (by
        intro p hp
        rw [List.mem_singleton.mp hp]
        decide)
      (by simp)
      (by
        intro e he
        rw [List.mem_singleton.mp he]
        exact ⟨⟨1, false, false, 0⟩, List.mem_singleton_self _, rfl⟩)
      (by
        intro p hp
        rw [List.mem_singleton.mp hp]
        exact Or.inr ⟨(1, 0), List.mem_singleton_self _, rfl⟩)).1
      ⟨1, true, false, 0⟩ (by decide)⟩

/-- A zero result of JobIsStopped exhibits a process that is neither
completed nor stopped. -/
theorem jobIsStopped_zero_exists (qs : List Process)
    (h : jobIsStopped qs = 0) :
    ∃ q ∈ qs, q.completed = false ∧ q.stopped = false := by
  induction qs with
  | nil => cases h
  | cons p tl ih =>
    unfold jobIsStopped at h
    by_cases hb : (!p.completed && !p.stopped) = true
    · simp only [Bool.and_eq_true, Bool.not_eq_true'] at hb
      exact ⟨p, List.mem_cons_self _ _, hb.1, hb.2⟩
    · rw [if_neg hb] at h
      obtain ⟨q, hq, h1, h2⟩ := ih h
      exact ⟨q, List.mem_cons_of_mem _ hq, h1, h2⟩

/-- C9: a job whose processes are all completed reports JobIsStopped()
as 1 even though no process is stopped, because 0 is returned only when
some process is neither completed nor stopped. -/
theorem job_is_stopped_when_all_completed (ps : List Process)
    (h : ∀ p ∈ ps, p.completed = true) :
    jobIsStopped ps = 1 ∧
    ∀ qs : List Process, jobIsStopped qs = 0 →
      ∃ q ∈ qs, q.completed = false ∧ q.stopped = false := by
  refine ⟨?_, fun qs hqs => jobIsStopped_zero_exists qs hqs⟩
  rw [jobIsStopped_eq_one_iff]
  intro p hp
  rw [h p hp]
  simp

/-- Witness for job_is_stopped_when_all_completed: a two-process job,
all completed, none stopped, reports stopped. -/
theorem job_is_stopped_when_all_completed_witness :
    jobIsStopped [⟨3, true, false, 0⟩, ⟨4, true, false, 0⟩] = 1 :=
  (job_is_stopped_when_all_completed
    [⟨3, true, false, 0⟩, ⟨4, true, false, 0⟩]
    (by
      intro p hp
      rcases List.mem_cons.mp hp with h1 | h1
      · rw [h1]
      · rw [List.mem_singleton.mp h1])).1

/-- Heap values for the identifier-read and copy semantics: one
constructor per object kind that the symbol-table read distinguishes,
scalars carrying their payload and containers carrying the addresses of
their entries. -/
inductive HVal where
  | nullV
  | boolV (b : Bool)
  | intV (n : Int)
  | realV (bits : Nat)
  | stringV (s : String)
  | arrayV (elems : List Nat)
  | tupleV (elems : List Nat)
  | mapV (entries : List (Nat × Nat))
  | declV (typeName : String)
deriving DecidableEq

/-- The kind of a heap value. -/
def HVal.kind : HVal → ObjKind
  | .nullV => .NULL
  | .boolV _ => .BOOL
  | .intV _ => .INT
  | .realV _ => .REAL
  | .stringV _ => .STRING
  | .arrayV _ => .ARRAY
  | .tupleV _ => .TUPLE
  | .mapV _ => .MAP
  | .declV _ => .DECL_OBJ

/-- The scalar kinds of §3.2: NULL, BOOL, INT, REAL and STRING have
value semantics; every other kind is handed out by reference. -/
def isScalarKind : ObjKind → Bool
  | .NULL => true
  | .BOOL => true
  | .INT => true
  | .REAL => true
  | .STRING => true
  | _ => false

/-- An object store: the next fresh address and the contents of every
address. Object identity is the address. -/
structure Store where
  next : Nat
  mem : Nat → HVal

/-- Overwrite the value at an address (a mutation of that object). -/
def Store.write (st : Store) (a : Nat) (v : HVal) : Store :=
  ⟨st.next, fun a2 => if a2 = a then v else st.mem a2⟩

/-- Allocate a fresh address holding the given value. -/
def Store.alloc (st : Store) (v : HVal) : Store × Nat :=
  (⟨st.next + 1, fun a2 => if a2 = st.next then v else st.mem a2⟩, st.next)

/-- Modelled from the spec: the implementation of
ExpressionExecutor::ExecIdentifier / SymbolAttr::SharedAccess is not
under src/ (src/interpreter/expr-executor.h:43-50 documents the
behavior, §3.2 and §4.2 specify it): reading an identifier returns a
fresh copy of the bound object when its kind is scalar and the same
handle otherwise. -/
def sharedAccess (st : Store) (addr : Nat) : Store × Nat :=
  if isScalarKind (st.mem addr).kind then st.alloc (st.mem addr)
  else (st, addr)

/-- C1: reading a bound scalar yields a fresh address with equal value,
leaving the original intact under mutation of the copy; reading a
container or declared instance yields the very same handle, so a write
through the returned handle is seen at the original address. The scalar
kinds are exactly NULL, BOOL, INT, REAL, STRING. -/
theorem exec_identifier_copy_semantics (st : Store) (addr : Nat)
    (hv : addr < st.next) :
    (isScalarKind (st.mem addr).kind = true →
      (sharedAccess st addr).2 ≠ addr ∧
      (sharedAccess st addr).1.mem (sharedAccess st addr).2 = st.mem addr ∧
      (sharedAccess st addr).1.mem addr = st.mem addr ∧
      ∀ v : HVal,
        ((sharedAccess st addr).1.write (sharedAccess st addr).2 v).mem addr =
          st.mem addr) ∧
    (isScalarKind (st.mem addr).kind = false →
      sharedAccess st addr = (st, addr) ∧
      ∀ v : HVal,
        ((sharedAccess st addr).1.write (sharedAccess st addr).2 v).mem addr =
          v) ∧
    (∀ k : ObjKind, isScalarKind k = true ↔
      (k = ObjKind.NULL ∨ k = ObjKind.BOOL ∨ k = ObjKind.INT ∨
        k = ObjKind.REAL ∨ k = ObjKind.STRING)) := by
  have hne : addr ≠ st.next := Nat.ne_of_lt hv
  refine ⟨?_, ?_, ?_⟩
  · intro h
    simp only [sharedAccess, h, if_true, Store.alloc, Store.write]
    refine ⟨fun he => hne he.symm, by simp, by simp [hne], ?_⟩
    intro v
    simp [hne]
  · intro h
    simp only [sharedAccess, h, Bool.false_eq_true, if_false, Store.write]
    exact ⟨by simp, fun v => by simp⟩
  · intro k
    cases k <;> simp [isScalarKind]

/-- Witness for exec_identifier_copy_semantics: in a one-object store
holding the INT 5 at address 0, the read returns a distinct address with
the same value. -/
theorem exec_identifier_copy_semantics_witness :
    (sharedAccess ⟨1, fun _ => HVal.intV 5⟩ 0).2 ≠ 0 ∧
    (sharedAccess ⟨1, fun _ => HVal.intV 5⟩ 0).1.mem
        (sharedAccess ⟨1, fun _ => HVal.intV 5⟩ 0).2 = HVal.intV 5 :=
  ⟨((exec_identifier_copy_semantics ⟨1, fun _ => HVal.intV 5⟩ 0
      (by decide)).1 rfl).1,
    ((exec_identifier_copy_semantics ⟨1, fun _ => HVal.intV 5⟩ 0
      (by decide)).1 rfl).2.1⟩

/-- Modelled from the spec: Object::Copy of the argument — the per-kind
Copy implementations are not under src/; §3.2's value semantics make a
copy a fresh object holding the same value. -/
def objectCopy (st : Store) (addr : Nat) : Store × Nat :=
  st.alloc (st.mem addr)

/-- ContainerType::Constructor (obj-type.h:301-310): a parameter list
whose size differs from 1 (any list that is not a singleton) raises
FUNC_PARAMS; otherwise the result is params[0]->Copy(). -/
def containerConstructor (st : Store) (params : List Nat) :
    Except ErrorCode (Store × Nat) :=
  match params with
  | [a] => .ok (objectCopy st a)
  | _ => .error ErrorCode.FUNC_PARAMS

/-- C10: the container type constructors (array, map, tuple all share
ContainerType::Constructor) raise FUNC_PARAMS unless given exactly one
argument, and with one argument return a fresh copy of it, the argument
object itself remaining unchanged. -/
theorem container_constructor_spec (st : Store) (params : List Nat) :
    (params.length ≠ 1 →
      containerConstructor st params = .error ErrorCode.FUNC_PARAMS) ∧
    (∀ a : Nat, params = [a] → a < st.next →
      ∃ (st2 : Store) (fresh : Nat),
        containerConstructor st params = .ok (st2, fresh) ∧
        fresh ≠ a ∧
        st2.mem fresh = st.mem a ∧
        st2.mem a = st.mem a) := by
  constructor
  · intro hlen
    match params with
    | [] => rfl
    | [a] => exact absurd rfl hlen
    | a :: b :: t => rfl
  · rintro a rfl ha
    refine ⟨(objectCopy st a).1, st.next, rfl, fun he => Nat.ne_of_lt ha he.symm,
      ?_, ?_⟩
    · simp [objectCopy, Store.alloc]
    · simp [objectCopy, Store.alloc, Nat.ne_of_lt ha]

/-- Witness for container_constructor_spec: the empty argument list is
rejected with FUNC_PARAMS and a singleton argument is copied to a fresh
address with the same value, the original untouched. -/
theorem container_constructor_spec_witness :
    containerConstructor ⟨1, fun _ => HVal.arrayV []⟩ [] =
        .error ErrorCode.FUNC_PARAMS ∧
      ∃ (st2 : Store) (fresh : Nat),
        containerConstructor ⟨1, fun _ => HVal.arrayV []⟩ [0] =
            .ok (st2, fresh) ∧
          fresh ≠ 0 ∧
          st2.mem fresh = (⟨1, fun _ => HVal.arrayV []⟩ : Store).mem 0 ∧
          st2.mem 0 = (⟨1, fun _ => HVal.arrayV []⟩ : Store).mem 0 :=
  ⟨(container_constructor_spec ⟨1, fun _ => HVal.arrayV []⟩ []).1 (by decide),
    (container_constructor_spec ⟨1, fun _ => HVal.arrayV []⟩ [0]).2 0 rfl
      (by decide)⟩

end ShppSpec
